import Mathlib

/-!
Shallow embedding of the PrisonersDilemmaAutomaton repository
(src/automaton/agent.py, environment.py, tournament.py), together with
theorems settling the frozen claims about it.

Conventions of the embedding:
* Python lists of moves become `List Int` (cooperate = +1, defect = -1).
* Exceptions (`ValueError` from `Agent.__init__`, numpy shape errors,
  `IndexError` from indexing an empty result) become `Option`/`none`.
* The single random draw `np.random.randint(low, high, 1)` in
  `Environment.iterate` is modelled by an explicit oracle argument `r : Int`
  that stands for the drawn integer; no other randomness exists in the code.
* numpy arrays appearing in the code are rectangular 2-row arrays; they are
  modelled as their two rows (`List Int` each).  numpy's elementwise `*`
  broadcasts along the column axis when one operand has exactly one column;
  `np.stack` demands equal lengths.  Both behaviours are modelled explicitly.
-/

namespace Automaton

/-- Python scalar values that end up in the tournament's score rows: the rows
are built as Python lists mixing ints and strings, and `np.array` at the end of
`Tournament.compete` coerces every element of such a mixed table to a string
(unicode dtype). -/
inductive PyVal where
  | int : Int → PyVal
  | str : String → PyVal
deriving Repr, DecidableEq

/-- The string `np.array` stores for a scalar when forced to a unicode dtype:
`str(x)` of the value. -/
def PyVal.render : PyVal → String
  | .int n => toString n
  | .str s => s

/-- Python slice `l[-k:]`.  Note the pitfall the source relies on at
`agent.py:112-113`: for `k = 0` the slice `[-0:]` is `[0:]`, i.e. the WHOLE
list, while for `k > 0` it is the last `min k l.length` elements. -/
def pySliceLast (l : List Int) (k : Nat) : List Int :=
  if k = 0 then l else l.drop (l.length - k)

/-- An agent (class `Agent`, agent.py).  The only stored state is the bit
sequence `id` (attribute `self.__id`); everything else is derived from it. -/
structure Agent where
  id : List Int
deriving Repr, DecidableEq

/-- `self.__start`: the first digit of the id (`self.__id[0]`). -/
def Agent.start (a : Agent) : Int := a.id.headI

/-- Number of columns of the decision matrix: `self.__id_matrix.shape[1]`,
i.e. `(len(id) - 1) // 2` (agent.py:95,101). -/
def Agent.dim2 (a : Agent) : Nat := (a.id.length - 1) / 2

/-- Row 0 of `self.__id_matrix = id[1:].reshape((2, (len(id)-1)//2))`:
the first `(len(id)-1)//2` of the remaining digits (row-major reshape). -/
def Agent.row0 (a : Agent) : List Int := (a.id.drop 1).take a.dim2

/-- Row 1 of `self.__id_matrix`: the rest of the remaining digits. -/
def Agent.row1 (a : Agent) : List Int := (a.id.drop 1).drop a.dim2

/-- `get_id_matrix` (agent.py:100-101): the start bit together with the two
rows of the decision matrix. -/
def Agent.get_id_matrix (a : Agent) : Int × List Int × List Int :=
  (a.start, a.row0, a.row1)

/-- `Agent.__init__` (agent.py:90-95): raises `ValueError` when the id has an
even number of digits, otherwise stores the id. -/
def Agent.make (id : List Int) : Option Agent :=
  if id.length % 2 = 0 then none else some ⟨id⟩

/-- `Agent.heaviside` (agent.py:103-105): `np.heaviside(x, 1) * 2 - 1`,
applied here to one scalar entry; `np.heaviside(x, 1)` is 0 for `x < 0` and
1 for `x ≥ 0` (the second argument 1 is the value taken at 0). -/
def Agent.heaviside (x : Int) : Int :=
  (if x < 0 then 0 else 1) * 2 - 1

/-- numpy elementwise `*` of one row of the stacked history with the matching
row of the sliced decision matrix, with numpy's broadcasting along the column
axis: equal widths multiply pointwise, a width-1 operand is stretched, any
other mismatch is a `ValueError` (`none`). -/
def npBroadcastMul (h m : List Int) : Option (List Int) :=
  if h.length = m.length then some (List.zipWith (fun x y => x * y) h m)
  else if h.length = 1 then some (m.map (fun y => h.headI * y))
  else if m.length = 1 then some (h.map (fun x => x * m.headI))
  else none

/-- `Agent.decide` (agent.py:107-115), faithfully including its numpy
behaviour:

* empty other-history: return `(-1)**start` (agent.py:108-109);
* otherwise `length = min(len(history_self), dim2)`; the histories are sliced
  with `[-length:]` (so `length = 0` selects them WHOLE) and stacked
  (`np.stack` fails on unequal lengths); the matrix is sliced with
  `[:, -length:]`;
* `sum(history * matrix)` uses Python's builtin `sum`, which adds the two ROWS
  of the product elementwise, yielding the vector of per-column sums — NOT the
  sum of all entries;
* `self.heaviside(...)` maps over that vector and `[0]` takes its first entry
  (an `IndexError`, i.e. `none`, when the vector is empty). -/
def Agent.decide (a : Agent) (history_self history_other : List Int) : Option Int :=
  if history_other.length = 0 then
    some (if a.start % 2 = 0 then 1 else -1)
  else
    let length := min history_self.length a.dim2
    let rowO := pySliceLast history_other length
    let rowS := pySliceLast history_self length
    if rowO.length = rowS.length then
      match npBroadcastMul rowO (pySliceLast a.row0 length),
            npBroadcastMul rowS (pySliceLast a.row1 length) with
      | some p0, some p1 =>
          ((List.zipWith (fun x y => x + y) p0 p1).map Agent.heaviside).head?
      | _, _ => none
    else none

/-- The environment (class `Environment`, environment.py): a payoff function,
the nominal game length, and the optional `poisson` jitter parameter. -/
structure Environment where
  payoff : Int → Int → Int × Int
  length : Nat
  poisson : Option Int

/-- The round loop of `Environment.iterate` (environment.py:51-59): each round
both agents decide against the current histories (before either history is
updated), both decisions are appended, and the payoff is accumulated.  The
state is `(total_a, total_b, history_a, history_b)`; a decision that raises
aborts the run (`none`). -/
def iterLoop (env : Environment) (actor_a actor_b : Agent) :
    Nat → Int × Int × List Int × List Int → Option (Int × Int × List Int × List Int)
  | 0, state => some state
  | n + 1, (total_a, total_b, history_a, history_b) =>
    match actor_a.decide history_a history_b, actor_b.decide history_b history_a with
    | some decision_a, some decision_b =>
        let ab := env.payoff decision_a decision_b
        iterLoop env actor_a actor_b n
          (total_a + ab.1, total_b + ab.2,
           history_a ++ [decision_a], history_b ++ [decision_b])
    | _, _ => none

/-- `Environment.iterate` (environment.py:42-61).  The histories start empty;
if `poisson` is set the effective length is
`abs(np.random.randint(length - poisson, length + poisson, 1))`, whose drawn
integer is the oracle argument `r`; otherwise it is `length`.  Returns
`(total_a, total_b, history_a, history_b)`. -/
def Environment.iterate (env : Environment) (r : Int) (actor_a actor_b : Agent) :
    Option (Int × Int × List Int × List Int) :=
  let length : Nat :=
    match env.poisson with
    | some _ => r.natAbs
    | none => env.length
  iterLoop env actor_a actor_b length (0, 0, [], [])

/-- Ceiling of log2, computed by structural recursion on a fuel bound:
`ceil(log2 n) = 1 + ceil(log2 (ceil (n / 2)))` for `n ≥ 2`, and `0` for
`n ≤ 1`.  This is the exact value of `np.log2(n).__ceil__()` at tournament.py:55. -/
def ceilLog2Core : Nat → Nat → Nat
  | 0, _ => 0
  | fuel + 1, n => if n ≤ 1 then 0 else ceilLog2Core fuel ((n + 1) / 2) + 1

/-- `np.log2(competitors).__ceil__()` for a positive argument. -/
def ceilLog2 (n : Nat) : Nat := ceilLog2Core n n

/-- Binary digits of `n`, most significant first (empty for 0), by structural
recursion on a fuel bound. -/
def binCore : Nat → Nat → List Char
  | 0, _ => []
  | _ + 1, 0 => []
  | fuel + 1, n + 1 =>
      binCore fuel ((n + 1) / 2) ++ [if (n + 1) % 2 = 1 then '1' else '0']

/-- Python `format(n, f"0{width}b")`: the binary digits of `n` (the single
digit "0" for `n = 0`), left-padded with '0' to at least `width` characters. -/
def pyBinFormat (n width : Nat) : String :=
  let ds := if n = 0 then ['0'] else binCore n n
  String.mk (List.replicate (width - ds.length) '0' ++ ds)

/-- The code length selected at tournament.py:55-58: `ceil(log2 competitors)`,
incremented by 1 (with a printed, non-fatal warning) when even. -/
def corrected_leading (competitors : Nat) : Nat :=
  let leading := ceilLog2 competitors
  if leading % 2 = 0 then leading + 1 else leading

/-- The tournament (class `Tournament`, tournament.py).  Note that
`Tournament.__init__` (tournament.py:49-52) builds its environment with
`poisson=None` regardless of the constructor's `poisson` argument. -/
structure Tournament where
  competitors : Nat
  length : Nat
  environment : Environment

/-- `Tournament.__init__` (tournament.py:49-52): the `poisson` argument is
accepted and then ignored — the internal `Environment` is constructed with
`poisson=None`. -/
def Tournament.make (competitors length : Nat) (payoff : Int → Int → Int × Int)
    (_poisson : Option Int) : Tournament :=
  { competitors := competitors, length := length,
    environment := { payoff := payoff, length := length, poisson := none } }

/-- `Tournament.convert_to_id` (tournament.py:54-60): format `n` as a
zero-padded binary string of the corrected code length, and also as the list
of its digits as ints (`np.array(list(binary)).astype(int)`). -/
def Tournament.convert_to_id (t : Tournament) (n : Nat) : List Int × String :=
  let binary := pyBinFormat n (corrected_leading t.competitors)
  (binary.data.map (fun c => if c = '1' then (1 : Int) else 0), binary)

/-- The inner `for n_b in range(self.competitors)` loop of
`Tournament.compete` (tournament.py:67-71), producing the score rows of one
fixed `n_a` in order of `n_b`.  Each row is the Python list
`[n_a, n_b, string_a, string_b, score_a, score_b]`. -/
def Tournament.innerLoop (t : Tournament) (n_a : Nat) (a : Agent) (string_a : String) :
    List Nat → Option (List (List PyVal))
  | [] => some []
  | n_b :: rest =>
    match Agent.make (t.convert_to_id n_b).1 with
    | none => none
    | some b =>
      match t.environment.iterate 0 a b with
      | none => none
      | some (score_a, score_b, _, _) =>
        match t.innerLoop n_a a string_a rest with
        | none => none
        | some rows =>
            some ([PyVal.int n_a, PyVal.int n_b,
                   PyVal.str string_a, PyVal.str (t.convert_to_id n_b).2,
                   PyVal.int score_a, PyVal.int score_b] :: rows)

/-- The outer `for n_a in tqdm(range(self.competitors))` loop of
`Tournament.compete` (tournament.py:64-71), concatenating the per-`n_a` blocks
in order of `n_a`. -/
def Tournament.outerLoop (t : Tournament) : List Nat → Option (List (List PyVal))
  | [] => some []
  | n_a :: rest =>
    match Agent.make (t.convert_to_id n_a).1 with
    | none => none
    | some a =>
      match t.innerLoop n_a a (t.convert_to_id n_a).2 (List.range t.competitors) with
      | none => none
      | some rows =>
        match t.outerLoop rest with
        | none => none
        | some more => some (rows ++ more)

/-- `Tournament.compete` (tournament.py:62-73): run both loops, then
`scores = np.array(scores)` — and because the rows mix ints with the two code
strings, `np.array` promotes the whole table to a unicode dtype, turning every
entry into its string rendering. -/
def Tournament.compete (t : Tournament) : Option (List (List PyVal)) :=
  match t.outerLoop (List.range t.competitors) with
  | none => none
  | some scores => some (scores.map (fun row => row.map (fun v => PyVal.str v.render)))

/-- The canonical example payoff function from the specification's interface
section (an external caller input, not repository code): (3,3) for mutual
cooperation, (1,1) for mutual defection, (0,5)/(5,0) otherwise. -/
def examplePayoff (da db : Int) : Int × Int :=
  if da = 1 ∧ db = 1 then (3, 3)
  else if da = -1 ∧ db = -1 then (1, 1)
  else if da = 1 then (0, 5)
  else (5, 0)

/-! ### Basic lemmas about the agent embedding -/

theorem Agent.make_elim {bits : List Int} {a : Agent} (h : Agent.make bits = some a) :
    a.id = bits ∧ bits.length % 2 = 1 := by
  unfold Agent.make at h
  by_cases h2 : bits.length % 2 = 0
  · simp [h2] at h
  · simp only [h2, if_false, Option.some.injEq] at h
    subst h
    exact ⟨rfl, by omega⟩

theorem Agent.row0_length {a : Agent} : a.row0.length = min a.dim2 (a.id.length - 1) := by
  simp [Agent.row0]

theorem Agent.row1_length {a : Agent} : a.row1.length = (a.id.length - 1) - a.dim2 := by
  simp [Agent.row1]
  omega

theorem Agent.row0_length_of_odd {a : Agent} (_h : a.id.length % 2 = 1) :
    a.row0.length = a.dim2 := by
  rw [Agent.row0_length]
  unfold Agent.dim2
  omega

theorem Agent.row1_length_of_odd {a : Agent} (h : a.id.length % 2 = 1) :
    a.row1.length = a.dim2 := by
  rw [Agent.row1_length]
  unfold Agent.dim2
  omega

theorem pySliceLast_zero (l : List Int) : pySliceLast l 0 = l := rfl

theorem pySliceLast_length_of_le {l : List Int} {k : Nat} (h1 : 1 ≤ k)
    (h2 : k ≤ l.length) : (pySliceLast l k).length = k := by
  unfold pySliceLast
  rw [if_neg (by omega)]
  simp
  omega

theorem pySliceLast_length_of_gt {l : List Int} {k : Nat} (h2 : l.length < k) :
    (pySliceLast l k).length = l.length := by
  unfold pySliceLast
  rw [if_neg (by omega)]
  simp
  omega

theorem pySliceLast_append {pre l : List Int} {k : Nat} (h1 : 1 ≤ k)
    (h2 : k ≤ l.length) : pySliceLast (pre ++ l) k = pySliceLast l k := by
  unfold pySliceLast
  rw [if_neg (by omega), if_neg (by omega)]
  have harith : (pre ++ l).length - k = pre.length + (l.length - k) := by
    simp
    omega
  rw [harith, ← List.drop_drop, List.drop_left]

/-- When the decision matrix has zero columns (a length-1 id, hence `m = 0`)
and the other history is non-empty, `decide` always fails: the `[-0:]` slices
select the WHOLE histories, which cannot be multiplied against the 2×0 matrix
(either a broadcast `ValueError`, or an empty product whose `[0]` raises). -/
theorem Agent.decide_m0 {a : Agent} (h0 : a.dim2 = 0)
    (history_self : List Int) {history_other : List Int} (ho : history_other ≠ []) :
    a.decide history_self history_other = none := by
  have hlen : ¬ history_other.length = 0 := by simpa using ho
  unfold Agent.decide
  rw [if_neg hlen]
  have hrow0 : a.row0 = [] := by simp [Agent.row0, h0]
  simp only [h0, Nat.min_zero, pySliceLast_zero, hrow0]
  by_cases heq : history_other.length = history_self.length
  · rw [if_pos heq]
    by_cases h1 : history_other.length = 1
    · have hp0 : npBroadcastMul history_other [] = some [] := by
        simp [npBroadcastMul, h1, hlen]
      rw [hp0]
      cases hp1 : npBroadcastMul history_self a.row1 <;> simp
    · have hp0 : npBroadcastMul history_other [] = none := by
        simp [npBroadcastMul, h1, hlen]
      rw [hp0]
  · rw [if_neg heq]

/-- With a well-formed decision matrix (row lengths equal to `dim2`), at least
one matrix column, and equally long histories — the shape every in-match call
has — `decide` returns a move. -/
theorem Agent.decide_isSome {a : Agent} (h0 : a.row0.length = a.dim2)
    (h1 : a.row1.length = a.dim2) (hm : 1 ≤ a.dim2)
    {history_self history_other : List Int}
    (hlen : history_self.length = history_other.length) :
    (a.decide history_self history_other).isSome := by
  by_cases ho : history_other.length = 0
  · unfold Agent.decide
    rw [if_pos ho]
    simp
  · unfold Agent.decide
    rw [if_neg ho]
    have hL1 : 1 ≤ min history_self.length a.dim2 := by omega
    have e1 : (pySliceLast history_other (min history_self.length a.dim2)).length =
        min history_self.length a.dim2 := pySliceLast_length_of_le hL1 (by omega)
    have e2 : (pySliceLast history_self (min history_self.length a.dim2)).length =
        min history_self.length a.dim2 := pySliceLast_length_of_le hL1 (by omega)
    have e3 : (pySliceLast a.row0 (min history_self.length a.dim2)).length =
        min history_self.length a.dim2 := pySliceLast_length_of_le hL1 (by omega)
    have e4 : (pySliceLast a.row1 (min history_self.length a.dim2)).length =
        min history_self.length a.dim2 := pySliceLast_length_of_le hL1 (by omega)
    rw [if_pos (by rw [e1, e2])]
    have hp0 : npBroadcastMul (pySliceLast history_other (min history_self.length a.dim2))
        (pySliceLast a.row0 (min history_self.length a.dim2)) =
        some (List.zipWith (fun x y => x * y)
          (pySliceLast history_other (min history_self.length a.dim2))
          (pySliceLast a.row0 (min history_self.length a.dim2))) := by
      unfold npBroadcastMul
      rw [if_pos (by rw [e1, e3])]
    have hp1 : npBroadcastMul (pySliceLast history_self (min history_self.length a.dim2))
        (pySliceLast a.row1 (min history_self.length a.dim2)) =
        some (List.zipWith (fun x y => x * y)
          (pySliceLast history_self (min history_self.length a.dim2))
          (pySliceLast a.row1 (min history_self.length a.dim2))) := by
      unfold npBroadcastMul
      rw [if_pos (by rw [e2, e4])]
    rw [hp0, hp1]
    have hlenzw : (List.zipWith (fun x y => x + y)
        (List.zipWith (fun x y => x * y)
          (pySliceLast history_other (min history_self.length a.dim2))
          (pySliceLast a.row0 (min history_self.length a.dim2)))
        (List.zipWith (fun x y => x * y)
          (pySliceLast history_self (min history_self.length a.dim2))
          (pySliceLast a.row1 (min history_self.length a.dim2)))).length =
        min history_self.length a.dim2 := by
      simp [e1, e2, e3, e4]
    cases hzw : List.zipWith (fun x y => x + y)
        (List.zipWith (fun x y => x * y)
          (pySliceLast history_other (min history_self.length a.dim2))
          (pySliceLast a.row0 (min history_self.length a.dim2)))
        (List.zipWith (fun x y => x * y)
          (pySliceLast history_self (min history_self.length a.dim2))
          (pySliceLast a.row1 (min history_self.length a.dim2))) with
    | nil =>
      rw [hzw] at hlenzw
      simp at hlenzw
      omega
    | cons x xs =>
      simp [hzw]

/-- Extending both histories in front with the same entries does not change
any of the inputs `decide` actually reads, provided the window (all `dim2`
matrix columns) already fits into both histories. -/
theorem Agent.decide_congr_prepend {a : Agent} {pre self other : List Int}
    (hm1 : 1 ≤ a.dim2) (hms : a.dim2 ≤ self.length) (hmo : a.dim2 ≤ other.length)
    (ho : other ≠ []) :
    a.decide (pre ++ self) (pre ++ other) = a.decide self other := by
  have hoL : ¬ other.length = 0 := by simpa using ho
  have hoL' : ¬ (pre ++ other).length = 0 := by rw [List.length_append]; omega
  have e1 : min (pre ++ self).length a.dim2 = a.dim2 :=
    min_eq_right (le_trans hms (by rw [List.length_append]; omega))
  have e2 : min self.length a.dim2 = a.dim2 := min_eq_right hms
  have s1 : pySliceLast (pre ++ other) a.dim2 = pySliceLast other a.dim2 :=
    pySliceLast_append hm1 hmo
  have s2 : pySliceLast (pre ++ self) a.dim2 = pySliceLast self a.dim2 :=
    pySliceLast_append hm1 hms
  simp only [Agent.decide]
  rw [if_neg hoL, if_neg hoL', e1, e2, s1, s2]

/-- When `decide` does return a move, prepending identical older entries to
both histories (the window still fitting the self history) returns the same
move. -/
theorem Agent.decide_prepend {a : Agent} {pre self other : List Int} {v : Int}
    (hms : a.dim2 ≤ self.length) (ho : other ≠ [])
    (hv : a.decide self other = some v) :
    a.decide (pre ++ self) (pre ++ other) = some v := by
  have hm1 : 1 ≤ a.dim2 := by
    rcases Nat.eq_zero_or_pos a.dim2 with h | h
    · rw [Agent.decide_m0 h self ho] at hv
      cases hv
    · exact h
  have hmo : a.dim2 ≤ other.length := by
    by_contra hlt
    push_neg at hlt
    have hoL : ¬ other.length = 0 := by simpa using ho
    have e2 : min self.length a.dim2 = a.dim2 := min_eq_right hms
    have l1 : (pySliceLast other a.dim2).length = other.length :=
      pySliceLast_length_of_gt hlt
    have l2 : (pySliceLast self a.dim2).length = a.dim2 :=
      pySliceLast_length_of_le hm1 hms
    simp only [Agent.decide] at hv
    rw [if_neg hoL, e2, if_neg (by rw [l1, l2]; omega)] at hv
    cases hv
  rw [Agent.decide_congr_prepend hm1 hms hmo ho, hv]

/-! ### Lemmas about the round loop -/

theorem iterLoop_lengths {env : Environment} {a b : Agent} (fuel : Nat) :
    ∀ st res : Int × Int × List Int × List Int,
      iterLoop env a b fuel st = some res →
      res.2.2.1.length = st.2.2.1.length + fuel ∧
      res.2.2.2.length = st.2.2.2.length + fuel := by
  induction fuel with
  | zero =>
    intro st res h
    simp [iterLoop] at h
    subst h
    simp
  | succ n ih =>
    rintro ⟨ta, tb, hA, hB⟩ res h
    unfold iterLoop at h
    cases hda : a.decide hA hB with
    | none =>
      rw [hda] at h
      simp at h
    | some da =>
      cases hdb : b.decide hB hA with
      | none =>
        rw [hda, hdb] at h
        simp at h
      | some db =>
        rw [hda, hdb] at h
        have ihr := ih _ _ h
        simp at ihr ⊢
        omega

theorem iterLoop_isSome {env : Environment} {a b : Agent}
    (ha0 : a.row0.length = a.dim2) (ha1 : a.row1.length = a.dim2) (ham : 1 ≤ a.dim2)
    (hb0 : b.row0.length = b.dim2) (hb1 : b.row1.length = b.dim2) (hbm : 1 ≤ b.dim2)
    (fuel : Nat) :
    ∀ st : Int × Int × List Int × List Int,
      st.2.2.1.length = st.2.2.2.length →
      (iterLoop env a b fuel st).isSome := by
  induction fuel with
  | zero =>
    intro st _
    simp [iterLoop]
  | succ n ih =>
    rintro ⟨ta, tb, hA, hB⟩ hlen
    simp at hlen
    unfold iterLoop
    obtain ⟨da, hda⟩ := Option.isSome_iff_exists.mp (Agent.decide_isSome ha0 ha1 ham hlen)
    obtain ⟨db, hdb⟩ := Option.isSome_iff_exists.mp (Agent.decide_isSome hb0 hb1 hbm hlen.symm)
    rw [hda, hdb]
    exact ih _ (by simp [hlen])

/-! ### Lemmas about the code-length selection and the binary encoding -/

theorem binCore_length_le : ∀ fuel n w : Nat, n < 2 ^ w → (binCore fuel n).length ≤ w := by
  intro fuel
  induction fuel with
  | zero =>
    intro n w _
    simp [binCore]
  | succ f ih =>
    intro n w hn
    cases n with
    | zero => simp [binCore]
    | succ m =>
      cases w with
      | zero => omega
      | succ w' =>
        have hdiv : (m + 1) / 2 < 2 ^ w' := by
          rw [pow_succ] at hn
          omega
        have := ih ((m + 1) / 2) w' hdiv
        simp [binCore]
        omega

theorem le_pow_ceilLog2Core : ∀ fuel n : Nat, n ≤ fuel → n ≤ 2 ^ ceilLog2Core fuel n := by
  intro fuel
  induction fuel with
  | zero =>
    intro n h
    simp [ceilLog2Core]
    omega
  | succ f ih =>
    intro n h
    by_cases h1 : n ≤ 1
    · have h0 : ceilLog2Core (f + 1) n = 0 := by simp [ceilLog2Core, h1]
      rw [h0]
      simpa using h1
    · have hrec := ih ((n + 1) / 2) (by omega)
      simp only [ceilLog2Core, h1, if_false]
      rw [pow_succ]
      omega

theorem le_pow_ceilLog2 (n : Nat) : n ≤ 2 ^ ceilLog2 n :=
  le_pow_ceilLog2Core n n (Nat.le_refl n)

theorem corrected_leading_odd (N : Nat) : corrected_leading N % 2 = 1 := by
  unfold corrected_leading
  by_cases h : ceilLog2 N % 2 = 0 <;> simp [h] <;> omega

theorem ceilLog2_le_corrected (N : Nat) : ceilLog2 N ≤ corrected_leading N := by
  unfold corrected_leading
  by_cases h : ceilLog2 N % 2 = 0 <;> simp [h]

theorem corrected_leading_pos (N : Nat) : 1 ≤ corrected_leading N := by
  have := corrected_leading_odd N
  omega

theorem corrected_leading_ge_three {N : Nat} (h : 3 ≤ N) : 3 ≤ corrected_leading N := by
  have h2 : N ≤ 2 ^ ceilLog2 N := le_pow_ceilLog2 N
  have hl : 2 ≤ ceilLog2 N := by
    by_contra hc
    push_neg at hc
    have : (2 : Nat) ^ ceilLog2 N ≤ 2 ^ 1 := Nat.pow_le_pow_right (by norm_num) (by omega)
    omega
  have := corrected_leading_odd N
  have := ceilLog2_le_corrected N
  omega

theorem pyBinFormat_length {n width : Nat} (h1 : 1 ≤ width) (h2 : n < 2 ^ width) :
    (pyBinFormat n width).length = width := by
  unfold pyBinFormat
  by_cases h0 : n = 0
  · simp [h0, String.length]
    omega
  · have := binCore_length_le n n width h2
    simp [h0, String.length]
    omega

/-! ### Lemmas about the tournament enumeration -/

theorem convert_to_id_lengths {t : Tournament} {n : Nat} (hn : n < t.competitors) :
    ((t.convert_to_id n).2).length = corrected_leading t.competitors ∧
    ((t.convert_to_id n).1).length = corrected_leading t.competitors := by
  have hw1 : 1 ≤ corrected_leading t.competitors := corrected_leading_pos _
  have hpow : n < 2 ^ corrected_leading t.competitors := by
    have h2 : t.competitors ≤ 2 ^ ceilLog2 t.competitors := le_pow_ceilLog2 _
    have hle : (2 : Nat) ^ ceilLog2 t.competitors ≤ 2 ^ corrected_leading t.competitors :=
      Nat.pow_le_pow_right (by norm_num) (ceilLog2_le_corrected _)
    omega
  constructor
  · exact pyBinFormat_length hw1 hpow
  · show ((pyBinFormat n (corrected_leading t.competitors)).data.map
      (fun c => if c = '1' then (1 : Int) else 0)).length = _
    rw [List.length_map]
    exact pyBinFormat_length hw1 hpow

theorem convert_agent {t : Tournament} {n : Nat} (hn : n < t.competitors) :
    Agent.make (t.convert_to_id n).1 = some (Agent.mk (t.convert_to_id n).1) ∧
    (Agent.mk (t.convert_to_id n).1).row0.length = (Agent.mk (t.convert_to_id n).1).dim2 ∧
    (Agent.mk (t.convert_to_id n).1).row1.length = (Agent.mk (t.convert_to_id n).1).dim2 ∧
    (Agent.mk (t.convert_to_id n).1).dim2 = (corrected_leading t.competitors - 1) / 2 := by
  have hlen := (convert_to_id_lengths hn).2
  have hodd : ((t.convert_to_id n).1).length % 2 = 1 := by
    rw [hlen]
    exact corrected_leading_odd _
  refine ⟨?_, Agent.row0_length_of_odd hodd, Agent.row1_length_of_odd hodd, ?_⟩
  · unfold Agent.make
    rw [if_neg (by omega)]
  · unfold Agent.dim2
    rw [show (Agent.mk (t.convert_to_id n).1).id = (t.convert_to_id n).1 from rfl, hlen]

theorem iterate_isSome_of_good {env : Environment} {r : Int} {a b : Agent}
    (ha0 : a.row0.length = a.dim2) (ha1 : a.row1.length = a.dim2) (ham : 1 ≤ a.dim2)
    (hb0 : b.row0.length = b.dim2) (hb1 : b.row1.length = b.dim2) (hbm : 1 ≤ b.dim2) :
    (env.iterate r a b).isSome := by
  unfold Environment.iterate
  exact iterLoop_isSome ha0 ha1 ham hb0 hb1 hbm _ (0, 0, [], []) rfl

theorem iterate_lengths {env : Environment} {r : Int} {a b : Agent}
    {ta tb : Int} {ha hb : List Int}
    (h : env.iterate r a b = some (ta, tb, ha, hb)) :
    ha.length = (match env.poisson with | some _ => r.natAbs | none => env.length) ∧
    hb.length = (match env.poisson with | some _ => r.natAbs | none => env.length) := by
  unfold Environment.iterate at h
  have hl := iterLoop_lengths _ _ _ h
  simpa using hl

theorem innerLoop_spec {t : Tournament} (h3 : 3 ≤ corrected_leading t.competitors)
    {a : Agent} (ha0 : a.row0.length = a.dim2) (ha1 : a.row1.length = a.dim2)
    (ham : 1 ≤ a.dim2) (n_a : Nat) (string_a : String) :
    ∀ l : List Nat, (∀ x ∈ l, x < t.competitors) →
      ∃ rows, t.innerLoop n_a a string_a l = some rows ∧
        rows.length = l.length ∧
        rows.map (fun row => (row[0]?, row[1]?)) =
          l.map (fun n_b : Nat =>
            (some (PyVal.int (n_a : Int)), some (PyVal.int (n_b : Int)))) := by
  intro l
  induction l with
  | nil => exact fun _ => ⟨[], rfl, rfl, rfl⟩
  | cons x rest ih =>
    intro hmem
    obtain ⟨hmk, hb0, hb1, hbd⟩ := convert_agent (hmem x (by simp))
    have hbm : 1 ≤ (Agent.mk (t.convert_to_id x).1).dim2 := by rw [hbd]; omega
    obtain ⟨res, hres⟩ := Option.isSome_iff_exists.mp
      (@iterate_isSome_of_good t.environment 0 a (Agent.mk (t.convert_to_id x).1)
        ha0 ha1 ham hb0 hb1 hbm)
    obtain ⟨sa, sb, hA, hB⟩ := res
    obtain ⟨rows, hrows, hlen, hmap⟩ := ih (fun y hy => hmem y (by simp [hy]))
    refine ⟨[PyVal.int n_a, PyVal.int x, PyVal.str string_a,
             PyVal.str (t.convert_to_id x).2, PyVal.int sa, PyVal.int sb] :: rows,
           ?_, ?_, ?_⟩
    · unfold Tournament.innerLoop
      simp [hmk, hres, hrows]
    · simp [hlen]
    · simp [hmap]

theorem outerLoop_spec {t : Tournament} (h3 : 3 ≤ corrected_leading t.competitors) :
    ∀ l : List Nat, (∀ x ∈ l, x < t.competitors) →
      ∃ rows, t.outerLoop l = some rows ∧
        rows.length = l.length * t.competitors ∧
        rows.map (fun row => (row[0]?, row[1]?)) =
          l.bind (fun n_a : Nat => (List.range t.competitors).map
            (fun n_b : Nat =>
              (some (PyVal.int (n_a : Int)), some (PyVal.int (n_b : Int))))) := by
  intro l
  induction l with
  | nil => exact fun _ => ⟨[], rfl, by simp, by simp⟩
  | cons x rest ih =>
    intro hmem
    obtain ⟨hmk, ha0, ha1, had⟩ := convert_agent (hmem x (by simp))
    have ham : 1 ≤ (Agent.mk (t.convert_to_id x).1).dim2 := by rw [had]; omega
    obtain ⟨rowsx, hrowsx, hlenx, hmapx⟩ :=
      innerLoop_spec h3 ha0 ha1 ham x (t.convert_to_id x).2 (List.range t.competitors)
        (fun y hy => by simpa using hy)
    obtain ⟨rows, hrows, hlen, hmap⟩ := ih (fun y hy => hmem y (by simp [hy]))
    refine ⟨rowsx ++ rows, ?_, ?_, ?_⟩
    · unfold Tournament.outerLoop
      simp [hmk, hrowsx, hrows]
    · simp [hlenx, hlen]
      ring
    · simp [hmapx, hmap]

theorem compete_spec {t : Tournament} (h3 : 3 ≤ corrected_leading t.competitors) :
    ∃ tbl, t.compete = some tbl ∧
      tbl.length = t.competitors * t.competitors ∧
      tbl.map (fun row => (row[0]?, row[1]?)) =
        (List.range t.competitors).bind (fun n_a : Nat => (List.range t.competitors).map
          (fun n_b : Nat => (some (PyVal.str (PyVal.int (n_a : Int)).render),
                             some (PyVal.str (PyVal.int (n_b : Int)).render)))) := by
  obtain ⟨rows, hrows, hlen, hmap⟩ :=
    outerLoop_spec h3 (List.range t.competitors) (fun y hy => by simpa using hy)
  refine ⟨rows.map (fun row => row.map (fun v => PyVal.str v.render)), ?_, ?_, ?_⟩
  · unfold Tournament.compete
    rw [hrows]
  · simp [hlen]
  · rw [List.map_map]
    have hcomp : ((fun row : List PyVal => (row[0]?, row[1]?)) ∘
        fun row : List PyVal => row.map (fun v => PyVal.str v.render)) =
        (fun p : Option PyVal × Option PyVal =>
          (p.1.map (fun v => PyVal.str v.render), p.2.map (fun v => PyVal.str v.render))) ∘
        (fun row : List PyVal => (row[0]?, row[1]?)) := by
      funext row
      simp
    rw [hcomp, ← List.map_map, hmap, List.map_bind]
    simp only [List.bind]
    apply congrArg
    funext n_a
    simp [Function.comp_def]

/-! ### The failing path: zero-column agents abort matches and tournaments -/

theorem iterLoop_none_m0 {env : Environment} {a b : Agent} (h0 : a.dim2 = 0) :
    ∀ (f : Nat) (ta tb : Int) (hA hB : List Int), hB ≠ [] →
      iterLoop env a b (f + 1) (ta, tb, hA, hB) = none := by
  intro f ta tb hA hB hne
  unfold iterLoop
  rw [Agent.decide_m0 h0 hA hne]

theorem iterate_none_m0 {env : Environment} {a b : Agent} (h0 : a.dim2 = 0)
    (hlen2 : 2 ≤ env.length) (hp : env.poisson = none) (r : Int) :
    env.iterate r a b = none := by
  simp only [Environment.iterate, hp]
  obtain ⟨f, hf⟩ : ∃ f, env.length = f + 2 := ⟨env.length - 2, by omega⟩
  rw [hf]
  have hda : a.decide [] [] = some (if a.start % 2 = 0 then 1 else -1) := rfl
  have hdb : b.decide [] [] = some (if b.start % 2 = 0 then 1 else -1) := rfl
  unfold iterLoop
  rw [hda, hdb]
  exact iterLoop_none_m0 h0 f _ _ _ _ (by simp)

theorem compete_eq_none {t : Tournament}
    (h : t.outerLoop (List.range t.competitors) = none) : t.compete = none := by
  unfold Tournament.compete
  rw [h]

theorem outerLoop_cons_none {t : Tournament} {x : Nat} {rest : List Nat} {a : Agent}
    (hmk : Agent.make (t.convert_to_id x).1 = some a)
    (hin : t.innerLoop x a (t.convert_to_id x).2 (List.range t.competitors) = none) :
    t.outerLoop (x :: rest) = none := by
  unfold Tournament.outerLoop
  simp [hmk, hin]

theorem innerLoop_cons_none {t : Tournament} {n_a : Nat} {a : Agent} {s : String}
    {x : Nat} {rest : List Nat} {b : Agent}
    (hmk : Agent.make (t.convert_to_id x).1 = some b)
    (hit : t.environment.iterate 0 a b = none) :
    t.innerLoop n_a a s (x :: rest) = none := by
  unfold Tournament.innerLoop
  simp [hmk, hit]

theorem compete_none_small {N len : Nat} {payoff : Int → Int → Int × Int} {p : Option Int}
    (hN1 : 1 ≤ N) (hN2 : N ≤ 2) (hlen : 2 ≤ len) :
    (Tournament.make N len payoff p).compete = none := by
  have hiter : Environment.iterate ⟨payoff, len, none⟩ 0 ⟨[0]⟩ ⟨[0]⟩ = none :=
    @iterate_none_m0 ⟨payoff, len, none⟩ ⟨[0]⟩ ⟨[0]⟩ rfl hlen rfl 0
  interval_cases N
  · apply compete_eq_none
    rw [show List.range (Tournament.make 1 len payoff p).competitors = [0] from rfl]
    refine outerLoop_cons_none
      (show Agent.make ((Tournament.make 1 len payoff p).convert_to_id 0).1 = some ⟨[0]⟩
        from rfl) ?_
    rw [show List.range (Tournament.make 1 len payoff p).competitors = [0] from rfl]
    exact innerLoop_cons_none
      (show Agent.make ((Tournament.make 1 len payoff p).convert_to_id 0).1 = some ⟨[0]⟩
        from rfl) hiter
  · apply compete_eq_none
    rw [show List.range (Tournament.make 2 len payoff p).competitors = [0, 1] from rfl]
    refine outerLoop_cons_none
      (show Agent.make ((Tournament.make 2 len payoff p).convert_to_id 0).1 = some ⟨[0]⟩
        by with_unfolding_all rfl) ?_
    rw [show List.range (Tournament.make 2 len payoff p).competitors = [0, 1] from rfl]
    exact innerLoop_cons_none
      (show Agent.make ((Tournament.make 2 len payoff p).convert_to_id 0).1 = some ⟨[0]⟩
        by with_unfolding_all rfl) hiter

/-! ### Membership lemmas: where each score row comes from -/

theorem innerLoop_mem {t : Tournament} {n_a : Nat} {a : Agent} {string_a : String} :
    ∀ (l : List Nat) (rows : List (List PyVal)),
      t.innerLoop n_a a string_a l = some rows →
      ∀ r ∈ rows, ∃ (n_b : Nat) (b : Agent) (sa sb : Int) (hA hB : List Int),
        n_b ∈ l ∧
        Agent.make (t.convert_to_id n_b).1 = some b ∧
        t.environment.iterate 0 a b = some (sa, sb, hA, hB) ∧
        r = [PyVal.int (n_a : Int), PyVal.int (n_b : Int), PyVal.str string_a,
             PyVal.str (t.convert_to_id n_b).2, PyVal.int sa, PyVal.int sb] := by
  intro l
  induction l with
  | nil =>
    intro rows h r hr
    simp [Tournament.innerLoop] at h
    subst h
    simp at hr
  | cons x rest ih =>
    intro rows h r hr
    unfold Tournament.innerLoop at h
    split at h
    · simp at h
    · rename_i b hmk
      split at h
      · simp at h
      · rename_i sa sb hA hB hit
        split at h
        · simp at h
        · rename_i rows0 hrec
          simp at h
          subst h
          rcases List.mem_cons.mp hr with hr | hr
          · exact ⟨x, b, sa, sb, hA, hB, by simp, hmk, hit, hr⟩
          · obtain ⟨n_b, b', sa', sb', hA', hB', hmem', rest'⟩ := ih rows0 hrec r hr
            exact ⟨n_b, b', sa', sb', hA', hB', by simp [hmem'], rest'⟩

theorem outerLoop_mem {t : Tournament} :
    ∀ (l : List Nat) (rows : List (List PyVal)),
      t.outerLoop l = some rows →
      ∀ r ∈ rows, ∃ (n_a : Nat) (a : Agent) (rowsa : List (List PyVal)),
        n_a ∈ l ∧ Agent.make (t.convert_to_id n_a).1 = some a ∧
        t.innerLoop n_a a (t.convert_to_id n_a).2 (List.range t.competitors) = some rowsa ∧
        r ∈ rowsa := by
  intro l
  induction l with
  | nil =>
    intro rows h r hr
    simp [Tournament.outerLoop] at h
    subst h
    simp at hr
  | cons x rest ih =>
    intro rows h r hr
    unfold Tournament.outerLoop at h
    split at h
    · simp at h
    · rename_i a hmk
      split at h
      · simp at h
      · rename_i rowsx hin
        split at h
        · simp at h
        · rename_i more hrec
          simp at h
          subst h
          rcases List.mem_append.mp hr with hr | hr
          · exact ⟨x, a, rowsx, by simp, hmk, hin, hr⟩
          · obtain ⟨n_a, a', rowsa, hmem', hmk', hin', hr'⟩ := ih more hrec r hr
            exact ⟨n_a, a', rowsa, by simp [hmem'], hmk', hin', hr'⟩

theorem compete_mem {t : Tournament} {tbl : List (List PyVal)}
    (h : t.compete = some tbl) :
    ∀ row ∈ tbl, ∃ (n_a n_b : Nat) (a b : Agent) (sa sb : Int) (hA hB : List Int),
      n_a < t.competitors ∧ n_b < t.competitors ∧
      Agent.make (t.convert_to_id n_a).1 = some a ∧
      Agent.make (t.convert_to_id n_b).1 = some b ∧
      t.environment.iterate 0 a b = some (sa, sb, hA, hB) ∧
      row = ([PyVal.int (n_a : Int), PyVal.int (n_b : Int),
              PyVal.str (t.convert_to_id n_a).2, PyVal.str (t.convert_to_id n_b).2,
              PyVal.int sa, PyVal.int sb]).map (fun v => PyVal.str v.render) := by
  intro row hrow
  unfold Tournament.compete at h
  split at h
  · simp at h
  · rename_i scores hout
    simp at h
    subst h
    obtain ⟨r0, hr0mem, hr0eq⟩ := List.mem_map.mp hrow
    obtain ⟨n_a, a, rowsa, hna, hmka, hinner, hr0in⟩ := outerLoop_mem _ _ hout r0 hr0mem
    obtain ⟨n_b, b, sa, sb, hA, hB, hnb, hmkb, hit, hreq⟩ := innerLoop_mem _ _ hinner r0 hr0in
    refine ⟨n_a, n_b, a, b, sa, sb, hA, hB, by simpa using hna, by simpa using hnb,
           hmka, hmkb, hit, ?_⟩
    rw [← hr0eq, hreq]

/-! ### The claims -/

/-- Claim C1 (code_bug evaluation): the specification (and the source's own
docstring, agent.py:46-53) say `decide` returns the sign of the TOTAL sum of
all entries of the element-wise product of the stacked 2×length history window
with the matching decision-matrix window, ties at 0 cooperating.  The code
instead applies Python's builtin `sum` — which adds the two ROWS elementwise,
leaving the vector of per-column sums — and then indexes `[0]`, so only the
first (oldest) column of the window decides.  For the agent decoded from
[0,1,1,1,1] (matrix [[1,1],[1,1]]) with selfHistory [-1,1] and
otherHistory [-1,1], the total sum of all four product entries is 0, so the
claimed rule answers cooperate (+1); the code returns defect (-1). -/
theorem claim_C1_divergence :
    Agent.make [0, 1, 1, 1, 1] = some ⟨[0, 1, 1, 1, 1]⟩ ∧
    (Agent.mk [0, 1, 1, 1, 1]).decide [-1, 1] [-1, 1] = some (-1) ∧
    (List.zipWith (fun x y => x * y) ([-1, 1] ++ [-1, 1] : List Int)
      ((Agent.mk [0, 1, 1, 1, 1]).row0 ++ (Agent.mk [0, 1, 1, 1, 1]).row1)).sum = 0 ∧
    Agent.heaviside 0 = 1 :=
  ⟨by decide, by decide, by decide, by decide⟩

/-- Claim C2: for every odd-length bit sequence, agent construction succeeds,
the bias is the first bit, and the decision matrix has exactly two rows of
(b-1)/2 entries each, filled row-major from the remaining bits (row 0 is the
first half, row 1 the second half); for every even-length sequence,
construction fails with the invalid-encoding error. -/
theorem claim_C2_decode (bits : List Int) :
    (bits.length % 2 = 1 →
      Agent.make bits = some ⟨bits⟩ ∧
      (Agent.mk bits).start = bits.headI ∧
      (Agent.mk bits).row0 ++ (Agent.mk bits).row1 = bits.drop 1 ∧
      (Agent.mk bits).row0.length = (bits.length - 1) / 2 ∧
      (Agent.mk bits).row1.length = (bits.length - 1) / 2) ∧
    (bits.length % 2 = 0 → Agent.make bits = none) := by
  constructor
  · intro hodd
    refine ⟨?_, rfl, ?_, ?_, ?_⟩
    · unfold Agent.make
      rw [if_neg (by omega)]
    · unfold Agent.row0 Agent.row1
      exact List.take_append_drop _ _
    · rw [Agent.row0_length_of_odd (show (Agent.mk bits).id.length % 2 = 1 from hodd)]
      rfl
    · rw [Agent.row1_length_of_odd (show (Agent.mk bits).id.length % 2 = 1 from hodd)]
      rfl
  · intro heven
    unfold Agent.make
    rw [if_pos heven]

/-- Witness for C2 at the odd input [0,1,0] and the even input [0,1]. -/
theorem claim_C2_witness :
    (Agent.make [0, 1, 0] = some ⟨[0, 1, 0]⟩ ∧
      (Agent.mk [0, 1, 0]).start = ([0, 1, 0] : List Int).headI ∧
      (Agent.mk [0, 1, 0]).row0 ++ (Agent.mk [0, 1, 0]).row1 =
        ([0, 1, 0] : List Int).drop 1 ∧
      (Agent.mk [0, 1, 0]).row0.length = (([0, 1, 0] : List Int).length - 1) / 2 ∧
      (Agent.mk [0, 1, 0]).row1.length = (([0, 1, 0] : List Int).length - 1) / 2) ∧
    Agent.make [0, 1] = none :=
  ⟨(claim_C2_decode [0, 1, 0]).1 (by decide), (claim_C2_decode [0, 1]).2 (by decide)⟩

/-- Claim C3 counterexample: the claim as stated fails — with competitorCount 2
and roundCount 2, `compete` returns no rows at all: the length-1 codes give
0-column decision matrices, the second round of the very first match raises,
and the error propagates out of `compete`. -/
theorem claim_C3_counterexample :
    (Tournament.make 2 2 examplePayoff none).compete = none := by decide

/-- Claim C3 (amended): for every competitorCount N ≥ 3 (the counts for which
every match completes), every round count, payoff function, and constructor
poisson argument, `compete` returns exactly N² rows, in row-major order of
(n_a, n_b): reading the first two (rendered) fields of the rows in table order
gives all n_b in 0..N-1 for n_a = 0 first, then for n_a = 1, and so on. -/
theorem claim_C3_rows (N len : Nat) (payoff : Int → Int → Int × Int)
    (p : Option Int) (hN : 3 ≤ N) :
    ∃ tbl, (Tournament.make N len payoff p).compete = some tbl ∧
      tbl.length = N * N ∧
      tbl.map (fun row => (row[0]?, row[1]?)) =
        (List.range N).bind (fun n_a : Nat => (List.range N).map
          (fun n_b : Nat => (some (PyVal.str (PyVal.int (n_a : Int)).render),
                             some (PyVal.str (PyVal.int (n_b : Int)).render)))) := by
  have h3 : 3 ≤ corrected_leading (Tournament.make N len payoff p).competitors :=
    corrected_leading_ge_three hN
  exact compete_spec h3

/-- Witness for C3 (amended) at N = 3, one round, the canonical payoff. -/
theorem claim_C3_witness :
    ∃ tbl, (Tournament.make 3 1 examplePayoff none).compete = some tbl ∧
      tbl.length = 3 * 3 ∧
      tbl.map (fun row => (row[0]?, row[1]?)) =
        (List.range 3).bind (fun n_a : Nat => (List.range 3).map
          (fun n_b : Nat => (some (PyVal.str (PyVal.int (n_a : Int)).render),
                             some (PyVal.str (PyVal.int (n_b : Int)).render)))) :=
  claim_C3_rows 3 1 examplePayoff none (by decide)

/-- Claim C4: in every completed run of the match engine the histories end
with exactly the effective round count of entries — the configured length
when the poisson jitter is unset, and the absolute value of the one drawn
integer `r` when it is set; moreover for well-formed agents with at least one
matrix column the run always completes. -/
theorem claim_C4_rounds (env : Environment) (r : Int) (a b : Agent) :
    (∀ (ta tb : Int) (ha hb : List Int), env.iterate r a b = some (ta, tb, ha, hb) →
      ha.length = (match env.poisson with | some _ => r.natAbs | none => env.length) ∧
      hb.length = (match env.poisson with | some _ => r.natAbs | none => env.length)) ∧
    ((a.row0.length = a.dim2 ∧ a.row1.length = a.dim2 ∧ 1 ≤ a.dim2) →
     (b.row0.length = b.dim2 ∧ b.row1.length = b.dim2 ∧ 1 ≤ b.dim2) →
     (env.iterate r a b).isSome) := by
  constructor
  · intro ta tb ha hb h
    exact iterate_lengths h
  · rintro ⟨x1, x2, x3⟩ ⟨y1, y2, y3⟩
    exact iterate_isSome_of_good x1 x2 x3 y1 y2 y3

/-- Witness for C4: a jitter-free 2-round match between two copies of the
agent [0,1,0] completes with both histories of length exactly 2. -/
theorem claim_C4_witness :
    (([1, 1] : List Int).length = 2 ∧ ([1, 1] : List Int).length = 2) ∧
    (Environment.iterate ⟨examplePayoff, 2, none⟩ 0 ⟨[0, 1, 0]⟩ ⟨[0, 1, 0]⟩).isSome :=
  ⟨(claim_C4_rounds ⟨examplePayoff, 2, none⟩ 0 ⟨[0, 1, 0]⟩ ⟨[0, 1, 0]⟩).1 6 6 [1, 1] [1, 1]
     (by decide),
   (claim_C4_rounds ⟨examplePayoff, 2, none⟩ 0 ⟨[0, 1, 0]⟩ ⟨[0, 1, 0]⟩).2
     ⟨by decide, by decide, by decide⟩ ⟨by decide, by decide, by decide⟩⟩

/-- Claim C5: `decide` is invariant to history older than the matrix width —
whenever the window fits the self history (len(selfHistory) ≥ m), the other
history is non-empty, and `decide` returns a move, prepending any identical
additional older entries to the front of both histories returns the same
move. -/
theorem claim_C5_window (a : Agent) (pre self other : List Int) (v : Int)
    (hms : a.dim2 ≤ self.length) (ho : other ≠ [])
    (hv : a.decide self other = some v) :
    a.decide (pre ++ self) (pre ++ other) = some v :=
  Agent.decide_prepend hms ho hv

/-- Witness for C5: prepending [1,-1] to both histories of a width-1 agent. -/
theorem claim_C5_witness :
    Agent.decide ⟨[0, 1, 0]⟩ ([1, -1] ++ [-1]) ([1, -1] ++ [1]) = some 1 :=
  claim_C5_window ⟨[0, 1, 0]⟩ [1, -1] [-1] [1] 1 (by decide) (by decide) (by decide)

/-- Claim C6 counterexample: the claim says total_a is a NUMBER equal to the
accumulated payoff sum; but `np.array(scores)` promotes the mixed rows to a
unicode dtype, so the returned table of the 1-competitor, 1-round tournament
holds the decimal string "3" — not the number 3 — in the total fields. -/
theorem claim_C6_counterexample :
    (Tournament.make 1 1 examplePayoff none).compete =
      some [[PyVal.str "0", PyVal.str "0", PyVal.str "0", PyVal.str "0",
             PyVal.str "3", PyVal.str "3"]] ∧
    PyVal.str "3" ≠ PyVal.int 3 :=
  ⟨by decide, by decide⟩

/-- Claim C6 (amended): every row of the table returned by `compete` is the
element-wise string rendering (np.array's unicode coercion) of the six fields
[n_a, n_b, code_a, code_b, total_a, total_b], where total_a and total_b are
the accumulated payoff sums produced by that pair's match — the numeric values
are preserved, but only as decimal strings. -/
theorem claim_C6_rows {t : Tournament} {tbl : List (List PyVal)}
    (h : t.compete = some tbl) :
    ∀ row ∈ tbl, ∃ (n_a n_b : Nat) (a b : Agent) (total_a total_b : Int)
        (ha hb : List Int),
      n_a < t.competitors ∧ n_b < t.competitors ∧
      Agent.make (t.convert_to_id n_a).1 = some a ∧
      Agent.make (t.convert_to_id n_b).1 = some b ∧
      t.environment.iterate 0 a b = some (total_a, total_b, ha, hb) ∧
      row = ([PyVal.int (n_a : Int), PyVal.int (n_b : Int),
              PyVal.str (t.convert_to_id n_a).2, PyVal.str (t.convert_to_id n_b).2,
              PyVal.int total_a, PyVal.int total_b]).map (fun v => PyVal.str v.render) :=
  compete_mem h

/-- Witness for C6 (amended) at the 1-competitor, 1-round tournament. -/
theorem claim_C6_witness :
    ∃ (n_a n_b : Nat) (a b : Agent) (total_a total_b : Int) (ha hb : List Int),
      n_a < (Tournament.make 1 1 examplePayoff none).competitors ∧
      n_b < (Tournament.make 1 1 examplePayoff none).competitors ∧
      Agent.make ((Tournament.make 1 1 examplePayoff none).convert_to_id n_a).1 = some a ∧
      Agent.make ((Tournament.make 1 1 examplePayoff none).convert_to_id n_b).1 = some b ∧
      (Tournament.make 1 1 examplePayoff none).environment.iterate 0 a b =
        some (total_a, total_b, ha, hb) ∧
      [PyVal.str "0", PyVal.str "0", PyVal.str "0", PyVal.str "0",
       PyVal.str "3", PyVal.str "3"] =
        ([PyVal.int (n_a : Int), PyVal.int (n_b : Int),
          PyVal.str ((Tournament.make 1 1 examplePayoff none).convert_to_id n_a).2,
          PyVal.str ((Tournament.make 1 1 examplePayoff none).convert_to_id n_b).2,
          PyVal.int total_a, PyVal.int total_b]).map (fun v => PyVal.str v.render) :=
  @claim_C6_rows (Tournament.make 1 1 examplePayoff none)
    [[PyVal.str "0", PyVal.str "0", PyVal.str "0", PyVal.str "0",
      PyVal.str "3", PyVal.str "3"]] (by decide)
    [PyVal.str "0", PyVal.str "0", PyVal.str "0", PyVal.str "0",
     PyVal.str "3", PyVal.str "3"] (by decide)

/-- Claim C7: code-length selection and encoding are total — the corrected
code length is odd, every n in [0, competitorCount) is encoded as a
zero-padded binary string of exactly that length (likewise its digit
sequence), and agent construction from that encoding succeeds. -/
theorem claim_C7_encoding (t : Tournament) (n : Nat) (hn : n < t.competitors) :
    corrected_leading t.competitors % 2 = 1 ∧
    ((t.convert_to_id n).2).length = corrected_leading t.competitors ∧
    ((t.convert_to_id n).1).length = corrected_leading t.competitors ∧
    Agent.make (t.convert_to_id n).1 = some ⟨(t.convert_to_id n).1⟩ := by
  obtain ⟨h2, h1⟩ := convert_to_id_lengths hn
  exact ⟨corrected_leading_odd _, h2, h1, (convert_agent hn).1⟩

/-- Witness for C7 at competitorCount 5 (corrected length 3) and n = 4. -/
theorem claim_C7_witness :
    corrected_leading (Tournament.make 5 1 examplePayoff none).competitors % 2 = 1 ∧
    (((Tournament.make 5 1 examplePayoff none).convert_to_id 4).2).length =
      corrected_leading (Tournament.make 5 1 examplePayoff none).competitors ∧
    (((Tournament.make 5 1 examplePayoff none).convert_to_id 4).1).length =
      corrected_leading (Tournament.make 5 1 examplePayoff none).competitors ∧
    Agent.make ((Tournament.make 5 1 examplePayoff none).convert_to_id 4).1 =
      some ⟨((Tournament.make 5 1 examplePayoff none).convert_to_id 4).1⟩ :=
  claim_C7_encoding (Tournament.make 5 1 examplePayoff none) 4 (by decide)

/-- Claim C8: the tournament's randomness parameter is dead — the tournament
value (hence `compete`) is identical for any two poisson arguments, the
internal match engine is constructed with jitter disabled, its behaviour does
not depend on the random draw, and every tournament match that completes plays
exactly `length` rounds. -/
theorem claim_C8_dead_poisson (N len : Nat) (payoff : Int → Int → Int × Int)
    (p1 p2 : Option Int) :
    Tournament.make N len payoff p1 = Tournament.make N len payoff p2 ∧
    (Tournament.make N len payoff p1).compete = (Tournament.make N len payoff p2).compete ∧
    (Tournament.make N len payoff p1).environment.poisson = none ∧
    (∀ (r r' : Int) (a b : Agent),
      (Tournament.make N len payoff p1).environment.iterate r a b =
        (Tournament.make N len payoff p1).environment.iterate r' a b) ∧
    (∀ (r ta tb : Int) (a b : Agent) (ha hb : List Int),
      (Tournament.make N len payoff p1).environment.iterate r a b =
        some (ta, tb, ha, hb) →
      ha.length = len ∧ hb.length = len) := by
  refine ⟨rfl, rfl, rfl, fun r r' a b => rfl, fun r ta tb a b ha hb h => ?_⟩
  exact iterate_lengths h

/-- Witness for C8: two different poisson arguments give equal tournaments,
and a completed 1-round match has histories of length exactly 1. -/
theorem claim_C8_witness :
    Tournament.make 1 1 examplePayoff (some 7) = Tournament.make 1 1 examplePayoff none ∧
    (([1] : List Int).length = 1 ∧ ([1] : List Int).length = 1) :=
  ⟨(claim_C8_dead_poisson 1 1 examplePayoff (some 7) none).1,
   (claim_C8_dead_poisson 1 1 examplePayoff (some 7) none).2.2.2.2 0 3 3 ⟨[0]⟩ ⟨[0]⟩ [1] [1]
     (by decide)⟩

/-- Claim C9: with empty other-history, `decide` returns (-1)^bias: cooperate
(+1) iff the bias bit is 0 and defect (-1) iff it is 1, for every bit-valued
bias and every self-history. -/
theorem claim_C9_bias (bits : List Int) (a : Agent) (history_self : List Int)
    (hmk : Agent.make bits = some a) (hbias : bits.headI = 0 ∨ bits.headI = 1) :
    a.decide history_self [] = some (if bits.headI % 2 = 0 then 1 else -1) ∧
    (a.decide history_self [] = some 1 ↔ bits.headI = 0) ∧
    (a.decide history_self [] = some (-1) ↔ bits.headI = 1) := by
  obtain ⟨hid, _⟩ := Agent.make_elim hmk
  have hdec : a.decide history_self [] = some (if a.start % 2 = 0 then 1 else -1) := rfl
  rw [show a.start = bits.headI from by unfold Agent.start; rw [hid]] at hdec
  rcases hbias with h0 | h1
  · have hv : a.decide history_self [] = some 1 := by rw [hdec, h0]; norm_num
    rw [h0]
    simp [hv]
  · have hv : a.decide history_self [] = some (-1) := by rw [hdec, h1]; norm_num
    rw [h1]
    simp [hv]

/-- Witness for C9 at the bias-1 agent [1,1,0] (always opens with defect). -/
theorem claim_C9_witness :
    Agent.decide ⟨[1, 1, 0]⟩ [] [] =
      some (if ([1, 1, 0] : List Int).headI % 2 = 0 then 1 else -1) ∧
    (Agent.decide ⟨[1, 1, 0]⟩ [] [] = some 1 ↔ ([1, 1, 0] : List Int).headI = 0) ∧
    (Agent.decide ⟨[1, 1, 0]⟩ [] [] = some (-1) ↔ ([1, 1, 0] : List Int).headI = 1) :=
  claim_C9_bias [1, 1, 0] ⟨[1, 1, 0]⟩ [] (by decide) (by decide)

/-- Claim C10: an agent constructed from a length-1 code has a 0-column
decision matrix, and every `decide` call with non-empty histories fails to
return a move (the `[-0:]` slices select everything, which cannot be combined
with the 2×0 matrix); consequently a tournament with 1 ≤ competitorCount ≤ 2
and roundCount ≥ 2 raises instead of completing. -/
theorem claim_C10_zero_columns :
    (∀ (bits : List Int) (a : Agent) (history_self history_other : List Int),
      Agent.make bits = some a → bits.length = 1 →
      history_self ≠ [] → history_other ≠ [] →
      a.decide history_self history_other = none) ∧
    (∀ (N len : Nat) (payoff : Int → Int → Int × Int) (p : Option Int),
      1 ≤ N → N ≤ 2 → 2 ≤ len →
      (Tournament.make N len payoff p).compete = none) := by
  constructor
  · intro bits a self other hmk hlen1 _hs ho
    obtain ⟨hid, _⟩ := Agent.make_elim hmk
    have h0 : a.dim2 = 0 := by
      unfold Agent.dim2
      rw [hid, hlen1]
    exact Agent.decide_m0 h0 self ho
  · intro N len payoff p h1 h2 hl
    exact compete_none_small h1 h2 hl

/-- Witness for C10 at the length-1 agent [0] and the 2-competitor, 2-round
tournament. -/
theorem claim_C10_witness :
    Agent.decide ⟨[0]⟩ [1] [1] = none ∧
    (Tournament.make 2 2 examplePayoff none).compete = none :=
  ⟨claim_C10_zero_columns.1 [0] ⟨[0]⟩ [1] [1] (by decide) (by decide) (by decide)
     (by decide),
   claim_C10_zero_columns.2 2 2 examplePayoff none (by decide) (by decide) (by decide)⟩

end Automaton
